import Mathlib

/-!
Verification of the Validation-Logger firmware core
(`src/firmware/logger/timer1_capture.c`, `src/firmware/logger/main.c`,
`timer1_capture.h`) against its natural-language specification.

The C module state (ring buffer, indices, dropped counter, software overflow
counter, and the ICES1 edge-sense bit of TCCR1B) is embedded as an explicit
state record; the ISRs and API functions become state-transformers.  Machine
integers are modelled as `Nat` with explicit wrap-around (`% 65536` for
`uint16_t`, masking with `CAPTURE_BUFFER_SIZE - 1` exactly as the C does for
the `uint8_t` ring indices).
-/

namespace ValidationLogger

/-- Edge polarity recorded for each capture event (`capture_edge_t` in
`timer1_capture.h`: `CAPTURE_EDGE_RISING = 1`, `CAPTURE_EDGE_FALLING = 0`). -/
inductive capture_edge_t where
  | CAPTURE_EDGE_FALLING
  | CAPTURE_EDGE_RISING
deriving DecidableEq

/-- A capture event (`capture_event_t`): absolute 32-bit Timer1 tick value
latched in ICR1 plus the edge polarity observed. -/
structure capture_event_t where
  ticks : Nat
  edge : capture_edge_t
deriving DecidableEq

/-- Default slot value used to read `capture_buffer[i]`; the C array is static
storage, zero-initialised. -/
def zeroEvent : capture_event_t :=
  { ticks := 0, edge := capture_edge_t.CAPTURE_EDGE_FALLING }

/-- The module-level state of `timer1_capture.c`:
`capture_buffer`, `buffer_head`, `buffer_tail`, `dropped_events`,
`timer1_overflow_hi`, together with the ICES1 bit of TCCR1B (the edge-sense
configuration the ISR reads and toggles).  The buffer size
`CAPTURE_BUFFER_SIZE` is `capture_buffer.length` (a compile-time power of two
`≤ 256` in the C code). -/
structure CaptureState where
  capture_buffer : List capture_event_t
  buffer_head : Nat
  buffer_tail : Nat
  dropped_events : Nat
  timer1_overflow_hi : Nat
  ices1 : Bool
deriving DecidableEq

/-- `timer1_capture_init`: zero the indices and counters and arm the capture
unit for a rising edge (`TCCR1B = _BV(ICES1) | _BV(CS10)`, i.e. ICES1 set).
The buffer array itself is not touched. -/
def timer1_capture_init (s : CaptureState) : CaptureState :=
  { s with buffer_head := 0, buffer_tail := 0, dropped_events := 0,
           timer1_overflow_hi := 0, ices1 := true }

/-- `timer1_capture_available`: non-consuming emptiness hint,
`buffer_head != buffer_tail`. -/
def timer1_capture_available (s : CaptureState) : Bool :=
  s.buffer_head != s.buffer_tail

/-- `timer1_capture_pop`: pop the oldest event.  If `buffer_head !=
buffer_tail`, read `capture_buffer[tail]`, advance `buffer_tail` by one under
the mask, and return the event (`true` in C becomes `some`); otherwise return
`none` (`false` in C) and leave the state untouched — in particular nothing is
written through the out-pointer, which the embedding renders by returning
`none` instead of an event. -/
def timer1_capture_pop (s : CaptureState) : Option capture_event_t × CaptureState :=
  if s.buffer_head ≠ s.buffer_tail then
    (some (s.capture_buffer.getD s.buffer_tail zeroEvent),
     { s with buffer_tail := (s.buffer_tail + 1) &&& (s.capture_buffer.length - 1) })
  else
    (none, s)

/-- `timer1_capture_dropped`: atomic snapshot of the dropped-event counter. -/
def timer1_capture_dropped (s : CaptureState) : Nat :=
  s.dropped_events

/-- `ISR(TIMER1_OVF_vect)`: increment the 16-bit software overflow counter
(wrapping at 65536, as `uint16_t` increment does). -/
def ISR_TIMER1_OVF_vect (s : CaptureState) : CaptureState :=
  { s with timer1_overflow_hi := (s.timer1_overflow_hi + 1) % 65536 }

/-- The edge recorded by the capture ISR from the pre-capture edge-sense
configuration: `(TCCR1B & _BV(ICES1)) ? CAPTURE_EDGE_RISING :
CAPTURE_EDGE_FALLING`. -/
def icesEdge (ices1 : Bool) : capture_edge_t :=
  if ices1 then capture_edge_t.CAPTURE_EDGE_RISING
  else capture_edge_t.CAPTURE_EDGE_FALLING

/-- The boundary-guarded timestamp resolution inside `ISR(TIMER1_CAPT_vect)`:
`ovf_hi` is the snapshot of `timer1_overflow_hi`; when TOV1 is pending and the
latched `ICR1` value is in the low half of the range, `ovf_hi` is bumped by one
(`uint16_t` increment, wrapping at 65536); the 32-bit result is
`((uint32_t)ovf_hi << 16) | icr_ticks`. -/
def resolve_ticks (ovf_hi icr_ticks : Nat) (tov1 : Bool) : Nat :=
  let ovf := if tov1 && decide (icr_ticks < 0x8000) then (ovf_hi + 1) % 65536 else ovf_hi
  (ovf <<< 16) ||| icr_ticks

/-- `ISR(TIMER1_CAPT_vect)`: record the pre-capture edge polarity, resolve the
32-bit timestamp with the overflow boundary guard, enqueue the event if
advancing the head would not collide with the tail (otherwise count it as
dropped, a `uint16_t` increment wrapping at 65536), and finally toggle the
edge sense (`TCCR1B ^= _BV(ICES1)`) in both branches.
Inputs: `icr_ticks` is the latched `ICR1` value, `tov1` the TOV1 flag of
`TIFR1` at the moment the ISR samples it. -/
def ISR_TIMER1_CAPT_vect (s : CaptureState) (icr_ticks : Nat) (tov1 : Bool) :
    CaptureState :=
  let edge := icesEdge s.ices1
  let ticks := resolve_ticks s.timer1_overflow_hi icr_ticks tov1
  let head := s.buffer_head
  let next := (head + 1) &&& (s.capture_buffer.length - 1)
  if next ≠ s.buffer_tail then
    { s with capture_buffer := s.capture_buffer.set head { ticks := ticks, edge := edge },
             buffer_head := next, ices1 := !s.ices1 }
  else
    { s with dropped_events := (s.dropped_events + 1) % 65536, ices1 := !s.ices1 }

/-- A concrete two-slot state whose ring buffer is full (head 0, tail 1):
the next enqueue must drop. -/
def fullState2 : CaptureState :=
  { capture_buffer := [zeroEvent, zeroEvent], buffer_head := 0, buffer_tail := 1,
    dropped_events := 0, timer1_overflow_hi := 0, ices1 := true }

/-- A concrete empty four-slot state (capacity 4, three usable slots). -/
def emptyState4 : CaptureState :=
  { capture_buffer := List.replicate 4 zeroEvent, buffer_head := 0, buffer_tail := 0,
    dropped_events := 0, timer1_overflow_hi := 0, ices1 := true }

/-! ### Logical queue abstraction

The ring buffer's logical FIFO contents: the slots from `buffer_tail`
(oldest) up to, but excluding, `buffer_head` (next write slot), read in
capture order.  This is the abstraction the SPSC-queue claims are stated
against. -/

/-- Number of queued events implied by the ring indices. -/
def queueLen (s : CaptureState) : Nat :=
  (s.buffer_head + s.capture_buffer.length - s.buffer_tail) % s.capture_buffer.length

/-- The logical FIFO contents of the ring buffer, oldest first. -/
def absQueue (s : CaptureState) : List capture_event_t :=
  (List.range (queueLen s)).map fun i =>
    s.capture_buffer.getD ((s.buffer_tail + i) % s.capture_buffer.length) zeroEvent

/-- Well-formedness of the capture state for buffer capacity `2^k`:
the buffer has exactly `2^k` slots and both indices are in range. -/
def Inv (k : Nat) (s : CaptureState) : Prop :=
  s.capture_buffer.length = 2 ^ k ∧ s.buffer_head < 2 ^ k ∧ s.buffer_tail < 2 ^ k

instance (k : Nat) (s : CaptureState) : Decidable (Inv k s) := by
  unfold Inv
  infer_instance

/-- One mainline/interrupt interaction step: either the capture ISR fires
(with a latched `ICR1` value and the sampled TOV1 flag) or the mainline pops
once. -/
inductive LogOp where
  | capture (icr_ticks : Nat) (tov1 : Bool)
  | pop
deriving DecidableEq

/-- Result of running a sequence of interactions: the final state, the list
of successfully enqueued events (oldest first) and the list of successfully
popped events (oldest first). -/
structure RunResult where
  state : CaptureState
  enqueued : List capture_event_t
  popped : List capture_event_t
deriving DecidableEq

/-- Run a sequence of ISR invocations and pops against the capture state,
recording which events were actually stored and which were returned. -/
def runOps (s : CaptureState) : List LogOp → RunResult
  | [] => { state := s, enqueued := [], popped := [] }
  | LogOp.capture v tov1 :: ops =>
    let r := runOps (ISR_TIMER1_CAPT_vect s v tov1) ops
    if (s.buffer_head + 1) &&& (s.capture_buffer.length - 1) ≠ s.buffer_tail then
      { r with enqueued :=
          { ticks := resolve_ticks s.timer1_overflow_hi v tov1,
            edge := icesEdge s.ices1 } :: r.enqueued }
    else r
  | LogOp.pop :: ops =>
    match timer1_capture_pop s with
    | (some e, s1) =>
      let r := runOps s1 ops
      { r with popped := e :: r.popped }
    | (none, s1) => runOps s1 ops

/-! ### Main-loop model (`main.c`)

The mainline state, one loop iteration, and the serial output it produces.
The current-time reads (`timer1_capture_now()`, declared but not implemented
in the sources) enter the model as explicit `now` inputs per iteration.
`F_CPU` is a build-time constant and enters as the parameter `fcpu`;
`SW2_DEBOUNCE_TICKS = F_CPU / 20` as in `main.c`.  All `uint32_t` arithmetic
wraps modulo 2^32. -/

/-- One serial output line of the logger: the start/stop markers, the column
header, the idle heartbeat, or one data row `{ticks, edge, dt, dropped}`. -/
inductive OutLine where
  | start
  | header
  | stop
  | alive
  | row (ticks : Nat) (edge : capture_edge_t) (dt : Nat) (dropped : Nat)
deriving DecidableEq

/-- The mainline-owned state of `main`: `logging`, `sw2_prev`,
`sw2_lockout_until`, `last_tick`, `next_heartbeat`. -/
structure MainState where
  logging : Bool
  sw2_prev : Bool
  sw2_lockout_until : Nat
  last_tick : Nat
  next_heartbeat : Nat
deriving DecidableEq

/-- `SW2_DEBOUNCE_TICKS`: 50 ms at tick rate `F_CPU` (prescaler 1),
`F_CPU / 20`. -/
def SW2_DEBOUNCE_TICKS (fcpu : Nat) : Nat := fcpu / 20

/-- The start-of-run discard drain: `while (timer1_capture_pop(&ev_discard))`.
Fuel-bounded; with fuel above the queue length it fully empties the queue,
exactly as the C loop does. -/
def drainDiscard : Nat → CaptureState → CaptureState
  | 0, cs => cs
  | fuel + 1, cs =>
    match timer1_capture_pop cs with
    | (none, cs1) => cs1
    | (some _, cs1) => drainDiscard fuel cs1

/-- The per-iteration drain loop: `while (timer1_capture_pop(&ev))`.  Events
popped while not logging are discarded; while logging, each event is printed
as a row with `dt = (last_tick != 0) ? ev.ticks - last_tick : 0` (`uint32_t`
subtraction) and `last_tick` updated to `ev.ticks`.  Returns the capture
state, the final `last_tick` and the rows in emission order.  Fuel-bounded as
above. -/
def drainPrint : Nat → Bool → Nat → CaptureState → CaptureState × Nat × List OutLine
  | 0, _, lt, cs => (cs, lt, [])
  | fuel + 1, logging, lt, cs =>
    match timer1_capture_pop cs with
    | (none, cs1) => (cs1, lt, [])
    | (some ev, cs1) =>
      if logging then
        let dt := if lt ≠ 0 then (ev.ticks + 4294967296 - lt) % 4294967296 else 0
        let r := drainPrint fuel logging ev.ticks cs1
        (r.1, r.2.1,
         OutLine.row ev.ticks ev.edge dt (timer1_capture_dropped cs1) :: r.2.2)
      else
        drainPrint fuel logging lt cs1

/-- The rows the drain loop emits for a given event list while logging:
each event prints `dt = (ticks - last_tick) mod 2^32` when the previously
printed tick value (sentinel-encoded in `last_tick`) is nonzero, and `dt = 0`
otherwise; the dropped column shows the snapshot `drp`. -/
def printedRows (lt drp : Nat) : List capture_event_t → List OutLine
  | [] => []
  | ev :: evs =>
    OutLine.row ev.ticks ev.edge
      (if lt ≠ 0 then (ev.ticks + 4294967296 - lt) % 4294967296 else 0) drp ::
    printedRows ev.ticks drp evs

/-- The SW2 press-to-toggle block of the main loop: a transition is accepted
only when the raw level is low, the previous sampled level was high and
`now >= sw2_lockout_until`; on acceptance the state flips,
`sw2_lockout_until = now + SW2_DEBOUNCE_TICKS` (`uint32_t`), and the
Idle→Active edge emits the start marker and header, resets `last_tick` and
discard-drains the queue, while Active→Idle emits the stop marker. -/
def sw2_phase (fcpu : Nat) (m : MainState) (cs : CaptureState)
    (now : Nat) (sw2_now : Bool) : MainState × CaptureState × List OutLine :=
  if !sw2_now && m.sw2_prev && decide (m.sw2_lockout_until ≤ now) then
    if m.logging then
      ({ m with logging := false,
                sw2_lockout_until := (now + SW2_DEBOUNCE_TICKS fcpu) % 4294967296 },
       cs, [OutLine.stop])
    else
      ({ m with logging := true,
                sw2_lockout_until := (now + SW2_DEBOUNCE_TICKS fcpu) % 4294967296,
                last_tick := 0 },
       drainDiscard cs.capture_buffer.length cs,
       [OutLine.start, OutLine.header])
  else
    (m, cs, [])

/-- The idle-only heartbeat: while not logging, emit `alive` once
`now >= next_heartbeat` and re-arm one `F_CPU` period later (`uint32_t`). -/
def heartbeat_phase (fcpu : Nat) (m : MainState) (now : Nat) :
    MainState × List OutLine :=
  if !m.logging && decide (m.next_heartbeat ≤ now) then
    ({ m with next_heartbeat := (now + fcpu) % 4294967296 }, [OutLine.alive])
  else
    (m, [])

/-- One iteration of the main `for (;;)` loop: SW2 toggle handling, then
`sw2_prev` update, then the idle heartbeat, then the drain loop. -/
def main_iter (fcpu : Nat) (m : MainState) (cs : CaptureState)
    (now : Nat) (sw2_now : Bool) : MainState × CaptureState × List OutLine :=
  let p1 := sw2_phase fcpu m cs now sw2_now
  let m2 := { p1.1 with sw2_prev := sw2_now }
  let p2 := heartbeat_phase fcpu m2 now
  let p3 := drainPrint p1.2.1.capture_buffer.length p2.1.logging p2.1.last_tick p1.2.1
  ({ p2.1 with last_tick := p3.2.1 }, p3.1, p1.2.2 ++ p2.2 ++ p3.2.2)

/-- Count the iterations of a run whose SW2 handling accepts a toggle
(observable as a flip of `logging`). -/
def countToggles (fcpu : Nat) (m : MainState) (cs : CaptureState) :
    List (Nat × Bool) → Nat
  | [] => 0
  | (now, sw) :: rest =>
    let r := main_iter fcpu m cs now sw
    (if r.1.logging ≠ m.logging then 1 else 0) + countToggles fcpu r.1 r.2.1 rest

/-- A concrete Idle mainline state: not logging, switch released, no lockout
armed. -/
def mIdle0 : MainState :=
  { logging := false, sw2_prev := true, sw2_lockout_until := 0,
    last_tick := 0, next_heartbeat := 0 }

/-- A four-slot capture state holding two stale queued events. -/
def staleState2q : CaptureState :=
  { capture_buffer :=
      [{ ticks := 100, edge := capture_edge_t.CAPTURE_EDGE_RISING },
       { ticks := 200, edge := capture_edge_t.CAPTURE_EDGE_FALLING },
       zeroEvent, zeroEvent],
    buffer_head := 2, buffer_tail := 0, dropped_events := 0,
    timer1_overflow_hi := 0, ices1 := true }

/-! ### C5: dt between consecutive printed rows -/

/-- The queue after capturing events with latched counter reads 1000, 1500
and 2200 (no pending overflow) from a fresh four-slot state. -/
def dtScenarioState : CaptureState :=
  ISR_TIMER1_CAPT_vect (ISR_TIMER1_CAPT_vect (ISR_TIMER1_CAPT_vect
    (timer1_capture_init emptyState4) 1000 false) 1500 false) 2200 false

/-- The queue after capturing an event with tick value 0 followed by one with
tick value 500 from a fresh four-slot state. -/
def dtZeroState : CaptureState :=
  ISR_TIMER1_CAPT_vect (ISR_TIMER1_CAPT_vect
    (timer1_capture_init emptyState4) 0 false) 500 false

/-! ## Theorems -/

/-! ### Arithmetic helpers -/

/-- Joining a high half shifted left by 16 bits with a low half below 2^16 is
plain positional arithmetic. -/
theorem shiftLeft16_lor (a v : Nat) (hv : v < 65536) :
    (a <<< 16) ||| v = 65536 * a + v := by
  have hv' : v < 2 ^ 16 := by norm_num; omega
  rw [Nat.shiftLeft_eq, Nat.mul_comm, ← Nat.mul_add_lt_is_or hv']

/-- Masking with `2^k - 1` is reduction modulo `2^k` (the ring-buffer index
mask of `timer1_capture.c`, valid because `CAPTURE_BUFFER_SIZE` is enforced to
be a power of two). -/
theorem mask_eq_mod (x k : Nat) : x &&& (2 ^ k - 1) = x % 2 ^ k :=
  Nat.and_pow_two_sub_one_eq_mod x k

/-! ### C1: overflow boundary guard -/

/-- C1: for every capture handled by `ISR(TIMER1_CAPT_vect)`, if the latched
counter value `v` is below `0x8000` and TOV1 is pending, the resolved 32-bit
timestamp equals `((overflow_hi + 1) <<< 16) ||| v` (as a 32-bit value, i.e.
modulo 2^32); if the pending flag is clear it equals
`(overflow_hi <<< 16) ||| v`. -/
theorem resolve_ticks_boundary (ovf_hi v : Nat)
    (_hovf : ovf_hi < 65536) (hv : v < 65536) :
    (v < 0x8000 →
      resolve_ticks ovf_hi v true = (((ovf_hi + 1) <<< 16) ||| v) % 4294967296) ∧
    resolve_ticks ovf_hi v false = (ovf_hi <<< 16) ||| v := by
  constructor
  · intro hlow
    have hg : (true && decide (v < 0x8000)) = true := by simp [hlow]
    unfold resolve_ticks
    rw [hg]
    simp only [if_pos]
    rw [shiftLeft16_lor _ v hv, shiftLeft16_lor _ v hv]
    omega
  · unfold resolve_ticks
    simp

/-- Closed-form witness for `resolve_ticks_boundary` at `ovf_hi = 5`,
`v = 100`. -/
theorem resolve_ticks_boundary_witness :
    resolve_ticks 5 100 true = (((5 + 1) <<< 16) ||| 100) % 4294967296 ∧
    resolve_ticks 5 100 false = (5 <<< 16) ||| 100 :=
  ⟨(resolve_ticks_boundary 5 100 (by decide) (by decide)).1 (by decide),
   (resolve_ticks_boundary 5 100 (by decide) (by decide)).2⟩

/-- Reduce `x % N` for `x < 2 * N` to a case split on `x < N`. -/
theorem mod_two_cases {x N : Nat} (_hN : 0 < N) (hx : x < 2 * N) :
    x % N = if x < N then x else x - N := by
  split
  · exact Nat.mod_eq_of_lt (by assumption)
  · rw [Nat.mod_eq_sub_mod (by omega)]
    exact Nat.mod_eq_of_lt (by omega)

/-! ### ISR branch characterisations (shared helpers) -/

/-- When advancing the head would not collide with the tail, the capture ISR
stores the event at the head, advances the head, and toggles the edge sense. -/
theorem ISR_capt_store (s : CaptureState) (v : Nat) (tov1 : Bool)
    (h : (s.buffer_head + 1) &&& (s.capture_buffer.length - 1) ≠ s.buffer_tail) :
    ISR_TIMER1_CAPT_vect s v tov1 =
      { s with capture_buffer := s.capture_buffer.set s.buffer_head
                 { ticks := resolve_ticks s.timer1_overflow_hi v tov1,
                   edge := icesEdge s.ices1 },
               buffer_head := (s.buffer_head + 1) &&& (s.capture_buffer.length - 1),
               ices1 := !s.ices1 } := by
  unfold ISR_TIMER1_CAPT_vect
  simp [h]

/-- When advancing the head would collide with the tail, the capture ISR only
bumps the dropped counter (mod 2^16) and toggles the edge sense. -/
theorem ISR_capt_drop (s : CaptureState) (v : Nat) (tov1 : Bool)
    (h : (s.buffer_head + 1) &&& (s.capture_buffer.length - 1) = s.buffer_tail) :
    ISR_TIMER1_CAPT_vect s v tov1 =
      { s with dropped_events := (s.dropped_events + 1) % 65536,
               ices1 := !s.ices1 } := by
  unfold ISR_TIMER1_CAPT_vect
  simp [h]

/-- The capture ISR toggles the edge sense on every invocation, in both the
enqueue and the drop branch. -/
theorem ISR_capt_ices (s : CaptureState) (v : Nat) (tov1 : Bool) :
    (ISR_TIMER1_CAPT_vect s v tov1).ices1 = !s.ices1 := by
  by_cases h : (s.buffer_head + 1) &&& (s.capture_buffer.length - 1) = s.buffer_tail
  · rw [ISR_capt_drop s v tov1 h]
  · rw [ISR_capt_store s v tov1 h]

/-- Reading back the slot just written in the capture buffer. -/
theorem buffer_getD_set_self (l : List capture_event_t) (i : Nat)
    (h : i < l.length) (e : capture_event_t) :
    (l.set i e).getD i zeroEvent = e := by
  simp [List.getD_eq_getElem?_getD, List.getElem?_set_self h]

/-- Writing one buffer slot leaves every other slot unchanged. -/
theorem buffer_getD_set_ne (l : List capture_event_t) (i j : Nat)
    (h : i ≠ j) (e : capture_event_t) :
    (l.set i e).getD j zeroEvent = l.getD j zeroEvent := by
  simp [List.getD_eq_getElem?_getD, List.getElem?_set_ne h]

/-! ### C2: enqueue or drop, accounted exactly once -/

/-- C2: on every invocation of the capture ISR, if advancing the head by one
under the mask would collide with the tail, the dropped counter increments by
exactly one (wrapping modulo 2^16), the buffer contents are untouched and the
head is unchanged; otherwise the event `{ticks, edge}` is stored at the head,
the head advances by one under the mask, and the dropped counter is
unchanged. -/
theorem capture_enqueue_or_drop (s : CaptureState) (v : Nat) (tov1 : Bool) :
    ((s.buffer_head + 1) &&& (s.capture_buffer.length - 1) = s.buffer_tail →
      (ISR_TIMER1_CAPT_vect s v tov1).dropped_events = (s.dropped_events + 1) % 65536 ∧
      (ISR_TIMER1_CAPT_vect s v tov1).buffer_head = s.buffer_head ∧
      (ISR_TIMER1_CAPT_vect s v tov1).capture_buffer = s.capture_buffer) ∧
    ((s.buffer_head + 1) &&& (s.capture_buffer.length - 1) ≠ s.buffer_tail →
      (ISR_TIMER1_CAPT_vect s v tov1).capture_buffer =
        s.capture_buffer.set s.buffer_head
          { ticks := resolve_ticks s.timer1_overflow_hi v tov1,
            edge := icesEdge s.ices1 } ∧
      (ISR_TIMER1_CAPT_vect s v tov1).buffer_head =
        (s.buffer_head + 1) &&& (s.capture_buffer.length - 1) ∧
      (ISR_TIMER1_CAPT_vect s v tov1).dropped_events = s.dropped_events) := by
  unfold ISR_TIMER1_CAPT_vect
  constructor <;> intro h <;> simp [h]

/-- Closed-form witness for `capture_enqueue_or_drop` on the full two-slot
state. -/
theorem capture_enqueue_or_drop_witness :
    (ISR_TIMER1_CAPT_vect fullState2 10 false).dropped_events =
      (fullState2.dropped_events + 1) % 65536 ∧
    (ISR_TIMER1_CAPT_vect fullState2 10 false).buffer_head =
      fullState2.buffer_head ∧
    (ISR_TIMER1_CAPT_vect fullState2 10 false).capture_buffer =
      fullState2.capture_buffer :=
  (capture_enqueue_or_drop fullState2 10 false).1 (by decide)

/-! ### C9: pop on an empty queue -/

/-- C9: whenever the queue is empty (`buffer_head == buffer_tail`),
`timer1_capture_pop` returns `false` (here: `none`) and leaves the whole
state — head, tail, buffer contents and dropped counter — unchanged; no event
is produced through the out-pointer. -/
theorem pop_empty (s : CaptureState) (h : s.buffer_head = s.buffer_tail) :
    timer1_capture_pop s = (none, s) := by
  unfold timer1_capture_pop
  simp [h]

/-- Closed-form witness for `pop_empty` on a freshly initialised two-slot
state. -/
theorem pop_empty_witness :
    timer1_capture_pop (timer1_capture_init fullState2) =
      (none, timer1_capture_init fullState2) :=
  pop_empty (timer1_capture_init fullState2) (by decide)

/-! ### C10: initialisation arms a rising-edge capture -/

/-- C10: `timer1_capture_init` zeroes head, tail, the dropped counter and the
overflow counter and sets ICES1 (rising edge), so the first event captured
after initialisation is always recorded with edge polarity Rising. -/
theorem init_first_edge_rising (s : CaptureState) (k : Nat) (hk : 1 ≤ k)
    (hlen : s.capture_buffer.length = 2 ^ k) :
    (timer1_capture_init s).buffer_head = 0 ∧
    (timer1_capture_init s).buffer_tail = 0 ∧
    (timer1_capture_init s).dropped_events = 0 ∧
    (timer1_capture_init s).timer1_overflow_hi = 0 ∧
    (timer1_capture_init s).ices1 = true ∧
    ∀ v tov1,
      ((ISR_TIMER1_CAPT_vect (timer1_capture_init s) v tov1).capture_buffer.getD 0
          zeroEvent).edge = capture_edge_t.CAPTURE_EDGE_RISING := by
  have h2 : 2 ≤ 2 ^ k := by
    calc 2 = 2 ^ 1 := by norm_num
    _ ≤ 2 ^ k := Nat.pow_le_pow_right (by norm_num) hk
  refine ⟨rfl, rfl, rfl, rfl, rfl, ?_⟩
  intro v tov1
  have hne : ((timer1_capture_init s).buffer_head + 1) &&&
      ((timer1_capture_init s).capture_buffer.length - 1) ≠
      (timer1_capture_init s).buffer_tail := by
    show (0 + 1) &&& (s.capture_buffer.length - 1) ≠ 0
    rw [hlen, mask_eq_mod, Nat.mod_eq_of_lt (by omega)]
    omega
  rw [ISR_capt_store _ _ _ hne]
  have hh0 : (timer1_capture_init s).buffer_head = 0 := rfl
  have hlt : 0 < (timer1_capture_init s).capture_buffer.length := by
    show 0 < s.capture_buffer.length
    omega
  rw [hh0, buffer_getD_set_self _ _ hlt]
  rfl

/-- Closed-form witness for `init_first_edge_rising` on the two-slot state. -/
theorem init_first_edge_rising_witness :
    (timer1_capture_init fullState2).buffer_head = 0 ∧
    (timer1_capture_init fullState2).ices1 = true ∧
    ((ISR_TIMER1_CAPT_vect (timer1_capture_init fullState2) 123
        true).capture_buffer.getD 0 zeroEvent).edge =
      capture_edge_t.CAPTURE_EDGE_RISING := by
  have h := init_first_edge_rising fullState2 1 (by decide) (by decide)
  exact ⟨h.1, h.2.2.2.2.1, h.2.2.2.2.2 123 true⟩

/-! ### C8: edge recording and alternation -/

/-- C8: the capture ISR records the edge polarity from the edge-sense
configuration as it was before the capture and toggles the edge sense on
every invocation — the first conjunct quantifies over an arbitrary state, so
it covers the drop branch (full queue) as well as the enqueue branch;
consequently, when two consecutive invocations both enqueue (no drop between
them), the two stored events carry strictly alternating polarities. -/
theorem edge_alternation (s : CaptureState) (k : Nat) (hk : 1 ≤ k)
    (hlen : s.capture_buffer.length = 2 ^ k)
    (hhd : s.buffer_head < 2 ^ k)
    (v1 v2 : Nat) (t1 t2 : Bool)
    (henq1 : (s.buffer_head + 1) &&& (s.capture_buffer.length - 1) ≠ s.buffer_tail)
    (henq2 : ((ISR_TIMER1_CAPT_vect s v1 t1).buffer_head + 1) &&&
        ((ISR_TIMER1_CAPT_vect s v1 t1).capture_buffer.length - 1) ≠
        (ISR_TIMER1_CAPT_vect s v1 t1).buffer_tail) :
    (∀ (u : CaptureState) (v : Nat) (t : Bool),
      (ISR_TIMER1_CAPT_vect u v t).ices1 = !u.ices1) ∧
    ((ISR_TIMER1_CAPT_vect (ISR_TIMER1_CAPT_vect s v1 t1) v2 t2).capture_buffer.getD
        s.buffer_head zeroEvent).edge = icesEdge s.ices1 ∧
    ((ISR_TIMER1_CAPT_vect (ISR_TIMER1_CAPT_vect s v1 t1) v2 t2).capture_buffer.getD
        (ISR_TIMER1_CAPT_vect s v1 t1).buffer_head zeroEvent).edge =
      icesEdge (!s.ices1) ∧
    icesEdge s.ices1 ≠ icesEdge (!s.ices1) := by
  have h2 : 2 ≤ 2 ^ k := by
    calc 2 = 2 ^ 1 := by norm_num
    _ ≤ 2 ^ k := Nat.pow_le_pow_right (by norm_num) hk
  have hs1 := ISR_capt_store s v1 t1 henq1
  have hnext : (s.buffer_head + 1) &&& (s.capture_buffer.length - 1) =
      (s.buffer_head + 1) % 2 ^ k := by
    rw [hlen, mask_eq_mod]
  have hnextlt : (s.buffer_head + 1) % 2 ^ k < 2 ^ k :=
    Nat.mod_lt _ (by omega)
  have hnextne : (s.buffer_head + 1) % 2 ^ k ≠ s.buffer_head := by
    rw [mod_two_cases (by omega) (by omega)]
    split <;> omega
  have hhead1 : (ISR_TIMER1_CAPT_vect s v1 t1).buffer_head =
      (s.buffer_head + 1) % 2 ^ k := by rw [hs1, hnext]
  have hbuf1 : (ISR_TIMER1_CAPT_vect s v1 t1).capture_buffer =
      s.capture_buffer.set s.buffer_head
        { ticks := resolve_ticks s.timer1_overflow_hi v1 t1,
          edge := icesEdge s.ices1 } := by rw [hs1]
  have hices1 : (ISR_TIMER1_CAPT_vect s v1 t1).ices1 = !s.ices1 :=
    ISR_capt_ices s v1 t1
  have hs2 := ISR_capt_store (ISR_TIMER1_CAPT_vect s v1 t1) v2 t2 henq2
  refine ⟨fun u v t => ISR_capt_ices u v t, ?_, ?_, ?_⟩
  · rw [hs2]
    show (((ISR_TIMER1_CAPT_vect s v1 t1).capture_buffer.set
        (ISR_TIMER1_CAPT_vect s v1 t1).buffer_head _).getD s.buffer_head zeroEvent).edge = _
    rw [buffer_getD_set_ne, hbuf1, buffer_getD_set_self]
    · omega
    · rw [hhead1]; exact hnextne
  · rw [hs2]
    show (((ISR_TIMER1_CAPT_vect s v1 t1).capture_buffer.set
        (ISR_TIMER1_CAPT_vect s v1 t1).buffer_head
        { ticks := resolve_ticks (ISR_TIMER1_CAPT_vect s v1 t1).timer1_overflow_hi v2 t2,
          edge := icesEdge (ISR_TIMER1_CAPT_vect s v1 t1).ices1 }).getD
        (ISR_TIMER1_CAPT_vect s v1 t1).buffer_head zeroEvent).edge = _
    rw [buffer_getD_set_self]
    · rw [hices1]
    · rw [hbuf1, hhead1]
      simpa using hnextlt.trans_eq hlen.symm
  · cases h : s.ices1 <;> simp [icesEdge]

/-- Closed-form witness for `edge_alternation`: the toggle conjunct is
instantiated on the full two-slot state, whose ISR invocation takes the drop
branch, and the alternation conjuncts on the empty four-slot state. -/
theorem edge_alternation_witness :
    (ISR_TIMER1_CAPT_vect fullState2 7 false).ices1 = !fullState2.ices1 ∧
    ((ISR_TIMER1_CAPT_vect (ISR_TIMER1_CAPT_vect emptyState4 100 true) 200
        false).capture_buffer.getD emptyState4.buffer_head zeroEvent).edge =
      icesEdge emptyState4.ices1 ∧
    ((ISR_TIMER1_CAPT_vect (ISR_TIMER1_CAPT_vect emptyState4 100 true) 200
        false).capture_buffer.getD
        (ISR_TIMER1_CAPT_vect emptyState4 100 true).buffer_head zeroEvent).edge =
      icesEdge (!emptyState4.ices1) ∧
    icesEdge emptyState4.ices1 ≠ icesEdge (!emptyState4.ices1) := by
  have h := edge_alternation emptyState4 2 (by decide) (by decide) (by decide)
    100 200 true false (by decide) (by decide)
  exact ⟨h.1 fullState2 7 false, h.2.1, h.2.2.1, h.2.2.2⟩

/-- Closed form of `queueLen` under the state invariant. -/
theorem queueLen_eq (k : Nat) (s : CaptureState) (hInv : Inv k s) :
    queueLen s = if s.buffer_tail ≤ s.buffer_head
      then s.buffer_head - s.buffer_tail
      else s.buffer_head + 2 ^ k - s.buffer_tail := by
  obtain ⟨hl, hh, ht⟩ := hInv
  unfold queueLen
  rw [hl, mod_two_cases (by omega) (by omega)]
  split <;> split <;> omega

/-- The implied queue length is strictly below the capacity. -/
theorem queueLen_lt (k : Nat) (s : CaptureState) (hInv : Inv k s) :
    queueLen s < 2 ^ k := by
  rw [queueLen_eq k s hInv]
  obtain ⟨hl, hh, ht⟩ := hInv
  split <;> omega

/-- Empty exactly when the indices coincide. -/
theorem queueLen_zero_iff (k : Nat) (s : CaptureState) (hInv : Inv k s) :
    queueLen s = 0 ↔ s.buffer_head = s.buffer_tail := by
  rw [queueLen_eq k s hInv]
  obtain ⟨hl, hh, ht⟩ := hInv
  split <;> omega

/-- Full (one slot kept empty) exactly when advancing the head would hit the
tail. -/
theorem queueLen_full_iff (k : Nat) (s : CaptureState) (hInv : Inv k s) :
    queueLen s = 2 ^ k - 1 ↔ (s.buffer_head + 1) % 2 ^ k = s.buffer_tail := by
  obtain ⟨hl, hh, ht⟩ := hInv
  rw [queueLen_eq k s ⟨hl, hh, ht⟩,
      mod_two_cases (x := s.buffer_head + 1) (by omega) (by omega)]
  have h2 : 1 ≤ 2 ^ k := Nat.one_le_two_pow
  split <;> split <;> omega

/-- The slot the producer writes next sits just past the logical queue. -/
theorem tail_add_queueLen (k : Nat) (s : CaptureState) (hInv : Inv k s) :
    (s.buffer_tail + queueLen s) % 2 ^ k = s.buffer_head := by
  obtain ⟨hl, hh, ht⟩ := hInv
  rw [queueLen_eq k s ⟨hl, hh, ht⟩]
  by_cases hc : s.buffer_tail ≤ s.buffer_head
  · rw [if_pos hc]
    have : s.buffer_tail + (s.buffer_head - s.buffer_tail) = s.buffer_head := by omega
    rw [this]
    exact Nat.mod_eq_of_lt hh
  · rw [if_neg hc]
    have : s.buffer_tail + (s.buffer_head + 2 ^ k - s.buffer_tail) =
        s.buffer_head + 2 ^ k := by omega
    rw [this, Nat.add_mod_right]
    exact Nat.mod_eq_of_lt hh

/-- No logical queue slot coincides with the head slot. -/
theorem queue_index_ne_head (k : Nat) (s : CaptureState) (hInv : Inv k s)
    (i : Nat) (hi : i < queueLen s) :
    (s.buffer_tail + i) % 2 ^ k ≠ s.buffer_head := by
  obtain ⟨hl, hh, ht⟩ := hInv
  rw [queueLen_eq k s ⟨hl, hh, ht⟩] at hi
  have hilt : i < 2 ^ k := by split at hi <;> omega
  rw [mod_two_cases (x := s.buffer_tail + i) (by omega) (by omega)]
  split <;> split at hi <;> omega

/-- Enqueueing into a non-full queue appends the new event to the logical
queue and preserves the invariant. -/
theorem absQueue_enqueue (k : Nat) (s : CaptureState) (hInv : Inv k s)
    (v : Nat) (tov1 : Bool)
    (h : (s.buffer_head + 1) &&& (s.capture_buffer.length - 1) ≠ s.buffer_tail) :
    Inv k (ISR_TIMER1_CAPT_vect s v tov1) ∧
    absQueue (ISR_TIMER1_CAPT_vect s v tov1) =
      absQueue s ++ [{ ticks := resolve_ticks s.timer1_overflow_hi v tov1,
                       edge := icesEdge s.ices1 }] := by
  obtain ⟨hl, hh, ht⟩ := hInv
  have hs' := ISR_capt_store s v tov1 h
  have hbuf : (ISR_TIMER1_CAPT_vect s v tov1).capture_buffer =
      s.capture_buffer.set s.buffer_head
        { ticks := resolve_ticks s.timer1_overflow_hi v tov1,
          edge := icesEdge s.ices1 } := by rw [hs']
  have hhd : (ISR_TIMER1_CAPT_vect s v tov1).buffer_head =
      (s.buffer_head + 1) % 2 ^ k := by
    rw [hs']
    show (s.buffer_head + 1) &&& (s.capture_buffer.length - 1) = _
    rw [hl, mask_eq_mod]
  have htl : (ISR_TIMER1_CAPT_vect s v tov1).buffer_tail = s.buffer_tail := by
    rw [hs']
  have hlen' : (ISR_TIMER1_CAPT_vect s v tov1).capture_buffer.length = 2 ^ k := by
    rw [hbuf, List.length_set, hl]
  have hInv' : Inv k (ISR_TIMER1_CAPT_vect s v tov1) := by
    refine ⟨hlen', ?_, ?_⟩
    · rw [hhd]; exact Nat.mod_lt _ (by positivity)
    · rw [htl]; exact ht
  have h' : (s.buffer_head + 1) % 2 ^ k ≠ s.buffer_tail := by
    rw [← mask_eq_mod, ← hl]; exact h
  have hm := mod_two_cases (N := 2 ^ k) (x := s.buffer_head + 1)
    (by positivity) (by omega)
  have hq : queueLen (ISR_TIMER1_CAPT_vect s v tov1) = queueLen s + 1 := by
    have e1 : queueLen (ISR_TIMER1_CAPT_vect s v tov1) =
        if s.buffer_tail ≤ (s.buffer_head + 1) % 2 ^ k
        then (s.buffer_head + 1) % 2 ^ k - s.buffer_tail
        else (s.buffer_head + 1) % 2 ^ k + 2 ^ k - s.buffer_tail := by
      rw [queueLen_eq k _ hInv', hhd, htl]
    rw [e1, queueLen_eq k s ⟨hl, hh, ht⟩, hm]
    rw [hm] at h'
    split_ifs at h' ⊢ <;> omega
  refine ⟨hInv', ?_⟩
  have habs : absQueue s = (List.range (queueLen s)).map
      (fun i => s.capture_buffer.getD ((s.buffer_tail + i) % 2 ^ k) zeroEvent) := by
    unfold absQueue
    rw [hl]
  have habs' : absQueue (ISR_TIMER1_CAPT_vect s v tov1) =
      (List.range (queueLen s + 1)).map
        (fun i => (s.capture_buffer.set s.buffer_head
            { ticks := resolve_ticks s.timer1_overflow_hi v tov1,
              edge := icesEdge s.ices1 }).getD
          ((s.buffer_tail + i) % 2 ^ k) zeroEvent) := by
    unfold absQueue
    rw [hq, hbuf, htl, List.length_set, hl]
  rw [habs, habs', List.range_succ, List.map_append]
  congr 1
  · apply List.map_congr_left
    intro i hi
    rw [List.mem_range] at hi
    exact buffer_getD_set_ne _ _ _
      (Ne.symm (queue_index_ne_head k s ⟨hl, hh, ht⟩ i hi)) _
  · simp only [List.map_cons, List.map_nil]
    congr 1
    rw [tail_add_queueLen k s ⟨hl, hh, ht⟩]
    exact buffer_getD_set_self _ _ (by omega) _

/-- Popping from a non-empty queue returns the oldest logical-queue entry
exactly as stored and removes it, preserving the invariant. -/
theorem absQueue_pop (k : Nat) (s : CaptureState) (hInv : Inv k s)
    (h : s.buffer_head ≠ s.buffer_tail) :
    Inv k (timer1_capture_pop s).2 ∧
    (timer1_capture_pop s).1 =
      some (s.capture_buffer.getD s.buffer_tail zeroEvent) ∧
    absQueue s = s.capture_buffer.getD s.buffer_tail zeroEvent ::
      absQueue (timer1_capture_pop s).2 := by
  obtain ⟨hl, hh, ht⟩ := hInv
  have hpop : timer1_capture_pop s =
      (some (s.capture_buffer.getD s.buffer_tail zeroEvent),
       { s with buffer_tail := (s.buffer_tail + 1) &&& (s.capture_buffer.length - 1) }) := by
    unfold timer1_capture_pop
    rw [if_pos h]
  have htl' : (timer1_capture_pop s).2.buffer_tail = (s.buffer_tail + 1) % 2 ^ k := by
    rw [hpop]
    show (s.buffer_tail + 1) &&& (s.capture_buffer.length - 1) = _
    rw [hl, mask_eq_mod]
  have hbuf' : (timer1_capture_pop s).2.capture_buffer = s.capture_buffer := by
    rw [hpop]
  have hhd' : (timer1_capture_pop s).2.buffer_head = s.buffer_head := by
    rw [hpop]
  have hInv' : Inv k (timer1_capture_pop s).2 := by
    refine ⟨by rw [hbuf', hl], by rw [hhd']; exact hh, ?_⟩
    rw [htl']
    exact Nat.mod_lt _ (by positivity)
  have hm := mod_two_cases (N := 2 ^ k) (x := s.buffer_tail + 1)
    (by positivity) (by omega)
  have hqpos : 1 ≤ queueLen s := by
    rcases Nat.eq_zero_or_pos (queueLen s) with h0 | h1
    · exact absurd ((queueLen_zero_iff k s ⟨hl, hh, ht⟩).mp h0) h
    · exact h1
  have hq : queueLen (timer1_capture_pop s).2 = queueLen s - 1 := by
    have e1 : queueLen (timer1_capture_pop s).2 =
        if (s.buffer_tail + 1) % 2 ^ k ≤ s.buffer_head
        then s.buffer_head - (s.buffer_tail + 1) % 2 ^ k
        else s.buffer_head + 2 ^ k - (s.buffer_tail + 1) % 2 ^ k := by
      rw [queueLen_eq k _ hInv', hhd', htl']
    rw [e1, queueLen_eq k s ⟨hl, hh, ht⟩, hm]
    split_ifs <;> omega
  refine ⟨hInv', by rw [hpop], ?_⟩
  have hrw : queueLen s = (queueLen s - 1) + 1 := by omega
  have habs : absQueue s = (List.range ((queueLen s - 1) + 1)).map
      (fun i => s.capture_buffer.getD ((s.buffer_tail + i) % 2 ^ k) zeroEvent) := by
    unfold absQueue
    rw [hl, ← hrw]
  have habs' : absQueue (timer1_capture_pop s).2 =
      (List.range (queueLen s - 1)).map
        (fun i => s.capture_buffer.getD
          (((s.buffer_tail + 1) % 2 ^ k + i) % 2 ^ k) zeroEvent) := by
    unfold absQueue
    rw [hq, hbuf', htl', hl]
  rw [habs, habs', List.range_succ_eq_map, List.map_cons, List.map_map]
  congr 1
  · show s.capture_buffer.getD ((s.buffer_tail + 0) % 2 ^ k) zeroEvent = _
    rw [Nat.add_zero, Nat.mod_eq_of_lt ht]
  · apply List.map_congr_left
    intro i _hi
    show s.capture_buffer.getD ((s.buffer_tail + (i + 1)) % 2 ^ k) zeroEvent = _
    have e2 : s.buffer_tail + (i + 1) = s.buffer_tail + 1 + i := by omega
    rw [e2, Nat.mod_add_mod]

/-- A capture that drops (full queue) leaves the logical queue untouched and
bumps only the dropped counter. -/
theorem absQueue_drop (k : Nat) (s : CaptureState) (hInv : Inv k s)
    (v : Nat) (tov1 : Bool)
    (h : (s.buffer_head + 1) &&& (s.capture_buffer.length - 1) = s.buffer_tail) :
    Inv k (ISR_TIMER1_CAPT_vect s v tov1) ∧
    absQueue (ISR_TIMER1_CAPT_vect s v tov1) = absQueue s ∧
    (ISR_TIMER1_CAPT_vect s v tov1).dropped_events = (s.dropped_events + 1) % 65536 := by
  have hs' := ISR_capt_drop s v tov1 h
  refine ⟨?_, ?_, by rw [hs']⟩
  · obtain ⟨hl, hh, ht⟩ := hInv
    exact ⟨by rw [hs']; exact hl, by rw [hs']; exact hh, by rw [hs']; exact ht⟩
  · unfold absQueue queueLen
    rw [hs']

/-- Explicit form of a successful pop. -/
theorem pop_nonempty_eq (s : CaptureState) (h : s.buffer_head ≠ s.buffer_tail) :
    timer1_capture_pop s =
      (some (s.capture_buffer.getD s.buffer_tail zeroEvent),
       { s with buffer_tail :=
           (s.buffer_tail + 1) &&& (s.capture_buffer.length - 1) }) := by
  unfold timer1_capture_pop
  rw [if_pos h]

/-- The logical queue length is `queueLen`. -/
theorem absQueue_length (s : CaptureState) :
    (absQueue s).length = queueLen s := by
  unfold absQueue
  simp

/-- The logical queue of an empty-indices state is empty. -/
theorem absQueue_nil (k : Nat) (s : CaptureState) (hInv : Inv k s)
    (h : s.buffer_head = s.buffer_tail) : absQueue s = [] := by
  unfold absQueue
  rw [(queueLen_zero_iff k s hInv).mpr h]
  rfl

/-- Trace invariant: along any interleaving, the popped events followed by
the still-queued events are exactly the initially queued events followed by
the successfully enqueued ones, and the state invariant is preserved. -/
theorem runOps_trace (k : Nat) (ops : List LogOp) (s : CaptureState)
    (hInv : Inv k s) :
    Inv k (runOps s ops).state ∧
    (runOps s ops).popped ++ absQueue (runOps s ops).state =
      absQueue s ++ (runOps s ops).enqueued := by
  induction ops generalizing s with
  | nil =>
    refine ⟨hInv, ?_⟩
    simp [runOps]
  | cons op ops ih =>
    cases op with
    | capture v tov1 =>
      by_cases hc : (s.buffer_head + 1) &&& (s.capture_buffer.length - 1) = s.buffer_tail
      · have hdrop := absQueue_drop k s hInv v tov1 hc
        have h := ih (ISR_TIMER1_CAPT_vect s v tov1) hdrop.1
        simp only [runOps]
        rw [if_neg (not_not_intro hc)]
        exact ⟨h.1, by rw [h.2, hdrop.2.1]⟩
      · have he := absQueue_enqueue k s hInv v tov1 hc
        have h := ih (ISR_TIMER1_CAPT_vect s v tov1) he.1
        simp only [runOps]
        rw [if_pos hc]
        dsimp only
        refine ⟨h.1, ?_⟩
        rw [h.2, he.2]
        simp
    | pop =>
      by_cases hc : s.buffer_head = s.buffer_tail
      · have hp : timer1_capture_pop s = (none, s) := pop_empty s hc
        have h := ih s hInv
        simp only [runOps, hp]
        exact h
      · have hp := pop_nonempty_eq s hc
        have hq := absQueue_pop k s hInv hc
        have h := ih (timer1_capture_pop s).2 hq.1
        simp only [runOps, hp]
        refine ⟨?_, ?_⟩
        · have := h.1
          rw [hp] at this
          exact this
        · have h2 := h.2
          rw [hp] at h2
          simp only [List.cons_append]
          rw [h2, hq.2.2]
          simp [hp]

/-! ### C3: FIFO order with exact field values -/

/-- C3: for every interleaving of ISR enqueues and pops starting from an
empty queue, the popped events are exactly a prefix of the successfully
enqueued events — same order, same `{ticks, edge}` values — the remaining
suffix being the events still queued. -/
theorem fifo_order (k : Nat) (s : CaptureState) (ops : List LogOp)
    (hInv : Inv k s) (hempty : s.buffer_head = s.buffer_tail) :
    (runOps s ops).enqueued =
      (runOps s ops).popped ++ absQueue (runOps s ops).state := by
  have h := runOps_trace k ops s hInv
  have h0 : absQueue s = [] := absQueue_nil k s hInv hempty
  rw [h0] at h
  simpa using h.2.symm

/-- Closed-form witness for `fifo_order`: two enqueues then two pops on the
four-slot queue return the two events in capture order. -/
theorem fifo_order_witness :
    (runOps emptyState4 [LogOp.capture 11 false, LogOp.capture 22 false,
        LogOp.pop, LogOp.pop]).enqueued =
      (runOps emptyState4 [LogOp.capture 11 false, LogOp.capture 22 false,
          LogOp.pop, LogOp.pop]).popped ++
        absQueue (runOps emptyState4 [LogOp.capture 11 false,
            LogOp.capture 22 false, LogOp.pop, LogOp.pop]).state :=
  fifo_order 2 emptyState4
    [LogOp.capture 11 false, LogOp.capture 22 false, LogOp.pop, LogOp.pop]
    (by decide) (by decide)

/-! ### C4: queue-length invariant, empty/full characterisation -/

/-- C4: along every interleaving from an empty queue the implied queue length
(#enqueued − #dropped) − #dequeued, i.e. the length of the logical queue,
satisfies `enqueued = popped + length` and stays at most `capacity − 1`;
the queue is empty iff `head = tail`, full iff `(head+1) mod capacity = tail`,
and the two never coincide; and on the capacity-4 buffer, four captures with
no pop store 3 events and drop exactly 1. -/
theorem queue_invariants (k : Nat) (s : CaptureState) (ops : List LogOp)
    (hk : 1 ≤ k) (hInv : Inv k s) (hempty : s.buffer_head = s.buffer_tail) :
    ((runOps s ops).enqueued.length =
      (runOps s ops).popped.length + (absQueue (runOps s ops).state).length) ∧
    (absQueue (runOps s ops).state).length ≤ 2 ^ k - 1 ∧
    ((absQueue (runOps s ops).state).length = 0 ↔
      (runOps s ops).state.buffer_head = (runOps s ops).state.buffer_tail) ∧
    ((absQueue (runOps s ops).state).length = 2 ^ k - 1 ↔
      ((runOps s ops).state.buffer_head + 1) % 2 ^ k =
        (runOps s ops).state.buffer_tail) ∧
    ¬((runOps s ops).state.buffer_head = (runOps s ops).state.buffer_tail ∧
      ((runOps s ops).state.buffer_head + 1) % 2 ^ k =
        (runOps s ops).state.buffer_tail) ∧
    (runOps emptyState4 [LogOp.capture 10 false, LogOp.capture 20 false,
        LogOp.capture 30 false, LogOp.capture 40 false]).enqueued.length = 3 ∧
    (runOps emptyState4 [LogOp.capture 10 false, LogOp.capture 20 false,
        LogOp.capture 30 false, LogOp.capture 40 false]).state.dropped_events = 1 := by
  have h := runOps_trace k ops s hInv
  have h0 : absQueue s = [] := absQueue_nil k s hInv hempty
  have hfin := h.1
  have h2 : 2 ≤ 2 ^ k := by
    calc 2 = 2 ^ 1 := by norm_num
    _ ≤ 2 ^ k := Nat.pow_le_pow_right (by norm_num) hk
  have hlen : (runOps s ops).popped.length +
      (absQueue (runOps s ops).state).length = (runOps s ops).enqueued.length := by
    have := congrArg List.length h.2
    simpa [h0] using this
  have hql := absQueue_length (runOps s ops).state
  have hlt := queueLen_lt k _ hfin
  have hz := queueLen_zero_iff k _ hfin
  have hf := queueLen_full_iff k _ hfin
  refine ⟨by omega, by omega, ?_, ?_, ?_, by decide, by decide⟩
  · rw [hql]; exact hz
  · rw [hql]; exact hf
  · rintro ⟨ha, hb⟩
    have := hz.mpr ha
    have := hf.mpr hb
    omega

/-- Closed-form witness for `queue_invariants` at `k = 2` on the four-slot
queue with the four-capture scenario. -/
theorem queue_invariants_witness :
    ((runOps emptyState4 [LogOp.capture 10 false, LogOp.capture 20 false,
        LogOp.capture 30 false, LogOp.capture 40 false]).enqueued.length = 3 ∧
     (runOps emptyState4 [LogOp.capture 10 false, LogOp.capture 20 false,
        LogOp.capture 30 false, LogOp.capture 40 false]).state.dropped_events = 1) ∧
    (absQueue (runOps emptyState4 [LogOp.capture 10 false, LogOp.capture 20 false,
        LogOp.capture 30 false, LogOp.capture 40 false]).state).length ≤ 2 ^ 2 - 1 := by
  have h := queue_invariants 2 emptyState4
    [LogOp.capture 10 false, LogOp.capture 20 false,
     LogOp.capture 30 false, LogOp.capture 40 false]
    (by decide) (by decide) (by decide)
  exact ⟨⟨h.2.2.2.2.2.1, h.2.2.2.2.2.2⟩, h.2.1⟩

/-- Pop changes nothing but the tail index. -/
theorem pop_preserves (s : CaptureState) :
    (timer1_capture_pop s).2.capture_buffer = s.capture_buffer ∧
    (timer1_capture_pop s).2.buffer_head = s.buffer_head ∧
    (timer1_capture_pop s).2.dropped_events = s.dropped_events ∧
    (timer1_capture_pop s).2.timer1_overflow_hi = s.timer1_overflow_hi ∧
    (timer1_capture_pop s).2.ices1 = s.ices1 := by
  unfold timer1_capture_pop
  split <;> exact ⟨rfl, rfl, rfl, rfl, rfl⟩

/-- A successful pop shortens the logical queue by one. -/
theorem queueLen_pop (k : Nat) (s : CaptureState) (hInv : Inv k s)
    (h : s.buffer_head ≠ s.buffer_tail) :
    queueLen s = queueLen (timer1_capture_pop s).2 + 1 := by
  have hq := absQueue_pop k s hInv h
  have h2 := congrArg List.length hq.2.2
  rw [absQueue_length, List.length_cons, absQueue_length] at h2
  exact h2

/-- With fuel above the queue length, the discard drain empties the queue and
touches nothing but the tail index. -/
theorem drainDiscard_spec (k : Nat) :
    ∀ fuel cs, Inv k cs → queueLen cs < fuel →
    Inv k (drainDiscard fuel cs) ∧
    (drainDiscard fuel cs).buffer_head = (drainDiscard fuel cs).buffer_tail ∧
    (drainDiscard fuel cs).capture_buffer = cs.capture_buffer ∧
    (drainDiscard fuel cs).dropped_events = cs.dropped_events ∧
    (drainDiscard fuel cs).timer1_overflow_hi = cs.timer1_overflow_hi ∧
    (drainDiscard fuel cs).ices1 = cs.ices1 := by
  intro fuel
  induction fuel with
  | zero => intro cs _ hf; omega
  | succ f ih =>
    intro cs hInv hf
    by_cases hc : cs.buffer_head = cs.buffer_tail
    · have hp : timer1_capture_pop cs = (none, cs) := pop_empty cs hc
      simp only [drainDiscard, hp]
      exact ⟨hInv, hc, by trivial, by trivial, by trivial, by trivial⟩
    · have hp := pop_nonempty_eq cs hc
      have hq := absQueue_pop k cs hInv hc
      have hql := queueLen_pop k cs hInv hc
      have hpre := pop_preserves cs
      have h := ih (timer1_capture_pop cs).2 hq.1 (by omega)
      simp only [drainDiscard, hp]
      rw [hp] at h hpre
      exact ⟨h.1, h.2.1, h.2.2.1.trans hpre.1, h.2.2.2.1.trans hpre.2.2.1,
        h.2.2.2.2.1.trans hpre.2.2.2.1, h.2.2.2.2.2.trans hpre.2.2.2.2⟩

/-- The drain loop on an empty queue emits nothing and changes nothing. -/
theorem drainPrint_empty (fuel : Nat) (b : Bool) (lt : Nat) (cs : CaptureState)
    (hfuel : 0 < fuel) (h : cs.buffer_head = cs.buffer_tail) :
    drainPrint fuel b lt cs = (cs, lt, []) := by
  obtain ⟨f, rfl⟩ : ∃ f, fuel = f + 1 := ⟨fuel - 1, by omega⟩
  have hp : timer1_capture_pop cs = (none, cs) := pop_empty cs h
  simp only [drainPrint, hp]

/-- With fuel above the queue length and logging active, the drain loop
prints exactly the queued events, oldest first, chaining `last_tick`
through `printedRows`, and empties the queue. -/
theorem drainPrint_rows (k : Nat) :
    ∀ fuel lt cs, Inv k cs → queueLen cs < fuel →
    (drainPrint fuel true lt cs).2.2 =
      printedRows lt cs.dropped_events (absQueue cs) ∧
    Inv k (drainPrint fuel true lt cs).1 ∧
    (drainPrint fuel true lt cs).1.buffer_head =
      (drainPrint fuel true lt cs).1.buffer_tail := by
  intro fuel
  induction fuel with
  | zero => intro lt cs _ hf; omega
  | succ f ih =>
    intro lt cs hInv hf
    by_cases hc : cs.buffer_head = cs.buffer_tail
    · have hp : timer1_capture_pop cs = (none, cs) := pop_empty cs hc
      simp only [drainPrint, hp]
      rw [absQueue_nil k cs hInv hc]
      exact ⟨rfl, hInv, hc⟩
    · have hp := pop_nonempty_eq cs hc
      have hq := absQueue_pop k cs hInv hc
      have hql := queueLen_pop k cs hInv hc
      have hpre := pop_preserves cs
      have h := ih (cs.capture_buffer.getD cs.buffer_tail zeroEvent).ticks
        (timer1_capture_pop cs).2 hq.1 (by omega)
      rw [hp] at h hpre hq
      simp only [drainPrint, hp, if_pos rfl]
      refine ⟨?_, h.2.1, h.2.2⟩
      rw [hq.2.2]
      simp only [printedRows]
      rw [h.1, hpre.2.2.1]
      rfl

/-! ### SW2 / main-loop characterisations -/

/-- SW2 phase when the toggle guard is false: nothing happens. -/
theorem sw2_phase_false (fcpu : Nat) (m : MainState) (cs : CaptureState)
    (now : Nat) (sw2_now : Bool)
    (h : (!sw2_now && m.sw2_prev && decide (m.sw2_lockout_until ≤ now)) = false) :
    sw2_phase fcpu m cs now sw2_now = (m, cs, []) := by
  unfold sw2_phase
  rw [h]
  rfl

/-- SW2 phase on an accepted press while Idle: flip to Active, arm the
lockout, reset `last_tick`, discard-drain, emit start marker and header. -/
theorem sw2_phase_true_idle (fcpu : Nat) (m : MainState) (cs : CaptureState)
    (now : Nat) (sw2_now : Bool)
    (h : (!sw2_now && m.sw2_prev && decide (m.sw2_lockout_until ≤ now)) = true)
    (hlog : m.logging = false) :
    sw2_phase fcpu m cs now sw2_now =
      ({ m with logging := true,
                sw2_lockout_until := (now + SW2_DEBOUNCE_TICKS fcpu) % 4294967296,
                last_tick := 0 },
       drainDiscard cs.capture_buffer.length cs,
       [OutLine.start, OutLine.header]) := by
  unfold sw2_phase
  rw [h, hlog]
  rfl

/-- SW2 phase on an accepted press while Active: flip to Idle, arm the
lockout, emit the stop marker. -/
theorem sw2_phase_true_active (fcpu : Nat) (m : MainState) (cs : CaptureState)
    (now : Nat) (sw2_now : Bool)
    (h : (!sw2_now && m.sw2_prev && decide (m.sw2_lockout_until ≤ now)) = true)
    (hlog : m.logging = true) :
    sw2_phase fcpu m cs now sw2_now =
      ({ m with logging := false,
                sw2_lockout_until := (now + SW2_DEBOUNCE_TICKS fcpu) % 4294967296 },
       cs, [OutLine.stop]) := by
  unfold sw2_phase
  rw [h, hlog]
  rfl

/-- The heartbeat is suppressed while logging. -/
theorem heartbeat_logging (fcpu : Nat) (m : MainState) (now : Nat)
    (hlog : m.logging = true) :
    heartbeat_phase fcpu m now = (m, []) := by
  unfold heartbeat_phase
  rw [hlog]
  rfl

/-- When the SW2 guard is false the iteration preserves `logging` and the
lockout. -/
theorem main_iter_guard_false (fcpu : Nat) (m : MainState) (cs : CaptureState)
    (now : Nat) (sw2_now : Bool)
    (h : (!sw2_now && m.sw2_prev && decide (m.sw2_lockout_until ≤ now)) = false) :
    (main_iter fcpu m cs now sw2_now).1.logging = m.logging ∧
    (main_iter fcpu m cs now sw2_now).1.sw2_lockout_until = m.sw2_lockout_until := by
  unfold main_iter
  rw [sw2_phase_false fcpu m cs now sw2_now h]
  unfold heartbeat_phase
  dsimp only
  split <;> exact ⟨rfl, rfl⟩

/-- When the SW2 guard is true the iteration flips `logging` and arms the
lockout window. -/
theorem main_iter_guard_true (fcpu : Nat) (m : MainState) (cs : CaptureState)
    (now : Nat) (sw2_now : Bool)
    (h : (!sw2_now && m.sw2_prev && decide (m.sw2_lockout_until ≤ now)) = true) :
    (main_iter fcpu m cs now sw2_now).1.logging = !m.logging ∧
    (main_iter fcpu m cs now sw2_now).1.sw2_lockout_until =
      (now + SW2_DEBOUNCE_TICKS fcpu) % 4294967296 := by
  unfold main_iter
  cases hlog : m.logging
  · rw [sw2_phase_true_idle fcpu m cs now sw2_now h hlog]
    unfold heartbeat_phase
    dsimp only
    split <;> exact ⟨rfl, rfl⟩
  · rw [sw2_phase_true_active fcpu m cs now sw2_now h hlog]
    unfold heartbeat_phase
    dsimp only
    split <;> exact ⟨rfl, rfl⟩

/-- While every upcoming `now` reading stays below the armed lockout, no
toggle is accepted. -/
theorem countToggles_locked (fcpu : Nat) :
    ∀ inputs (m : MainState) (cs : CaptureState),
    (∀ p ∈ inputs, p.1 < m.sw2_lockout_until) →
    countToggles fcpu m cs inputs = 0 := by
  intro inputs
  induction inputs with
  | nil => intro m cs _; rfl
  | cons p rest ih =>
    intro m cs hin
    obtain ⟨now, sw⟩ := p
    have hlt : now < m.sw2_lockout_until := hin (now, sw) (by simp)
    have hg : (!sw && m.sw2_prev && decide (m.sw2_lockout_until ≤ now)) = false := by
      have hdec : decide (m.sw2_lockout_until ≤ now) = false := by
        rw [decide_eq_false_iff_not]
        omega
      rw [hdec, Bool.and_false]
    have hlem := main_iter_guard_false fcpu m cs now sw hg
    simp only [countToggles]
    rw [if_neg (by rw [hlem.1]; exact fun hne => hne rfl)]
    rw [ih (main_iter fcpu m cs now sw).1 (main_iter fcpu m cs now sw).2.1 ?_]
    · intro q hq
      rw [hlem.2]
      exact hin q (by simp [hq])

/-! ### C6: debounced press-to-toggle -/

/-- C6: a logging-state transition is accepted exactly when the raw switch
level reads low, the previously sampled level was high, and the monotonic
tick is at or past `sw2_lockout_until`; on acceptance the state flips and
the lockout is re-armed to `now + SW2_DEBOUNCE_TICKS` (`uint32_t`);
consequently, within one debounce window (no 32-bit wrap of the lockout),
a low reading that is accepted followed by any further readings — including
a second low — produces exactly one transition. -/
theorem sw2_debounce (fcpu : Nat) (m : MainState) (cs : CaptureState)
    (now n0 : Nat) (sw2_now : Bool) (rest : List (Nat × Bool)) :
    ((main_iter fcpu m cs now sw2_now).1.logging ≠ m.logging ↔
      (sw2_now = false ∧ m.sw2_prev = true ∧ m.sw2_lockout_until ≤ now)) ∧
    (sw2_now = false → m.sw2_prev = true → m.sw2_lockout_until ≤ now →
      (main_iter fcpu m cs now sw2_now).1.logging = !m.logging ∧
      (main_iter fcpu m cs now sw2_now).1.sw2_lockout_until =
        (now + SW2_DEBOUNCE_TICKS fcpu) % 4294967296) ∧
    (m.sw2_prev = true → m.sw2_lockout_until ≤ n0 →
      n0 + SW2_DEBOUNCE_TICKS fcpu < 4294967296 →
      (∀ p ∈ rest, p.1 < n0 + SW2_DEBOUNCE_TICKS fcpu) →
      countToggles fcpu m cs ((n0, false) :: rest) = 1) := by
  refine ⟨?_, ?_, ?_⟩
  · by_cases hg : (!sw2_now && m.sw2_prev && decide (m.sw2_lockout_until ≤ now)) = true
    · have h := main_iter_guard_true fcpu m cs now sw2_now hg
      simp only [Bool.and_eq_true, Bool.not_eq_true', decide_eq_true_eq] at hg
      rw [h.1]
      constructor
      · intro _
        exact ⟨hg.1.1, hg.1.2, hg.2⟩
      · intro _
        cases m.logging <;> simp
    · rw [Bool.not_eq_true] at hg
      have h := main_iter_guard_false fcpu m cs now sw2_now hg
      rw [h.1]
      constructor
      · intro hne
        exact absurd rfl hne
      · rintro ⟨h1, h2, h3⟩
        exfalso
        rw [h1, h2] at hg
        rw [decide_eq_true h3] at hg
        simp at hg
  · intro h1 h2 h3
    have hg : (!sw2_now && m.sw2_prev && decide (m.sw2_lockout_until ≤ now)) = true := by
      rw [h1, h2, decide_eq_true h3]
      rfl
    exact main_iter_guard_true fcpu m cs now sw2_now hg
  · intro h2 h3 hnowrap hrest
    have hg : (!false && m.sw2_prev && decide (m.sw2_lockout_until ≤ n0)) = true := by
      rw [h2, decide_eq_true h3]
      rfl
    have h := main_iter_guard_true fcpu m cs n0 false hg
    simp only [countToggles]
    rw [if_pos (by rw [h.1]; cases m.logging <;> simp)]
    rw [countToggles_locked fcpu rest _ _ ?_]
    · intro q hq
      rw [h.2, Nat.mod_eq_of_lt hnowrap]
      exact hrest q hq

/-- Closed-form witness for `sw2_debounce`: a press at tick 100 followed by a
release reading and a second low reading at tick 300, all inside the 50 ms
window at 16 MHz, toggles exactly once. -/
theorem sw2_debounce_witness :
    countToggles 16000000 mIdle0 emptyState4
      [(100, false), (200, true), (300, false)] = 1 := by
  have h := sw2_debounce 16000000 mIdle0 emptyState4 100 100 false
    [(200, true), (300, false)]
  exact h.2.2 (by decide) (by decide) (by decide) (by decide)

/-- Full effect of an accepted Idle→Active press: start marker and header,
`last_tick` reset, queue discard-drained, heartbeat suppressed, no rows. -/
theorem main_iter_accept_idle_eq (fcpu k : Nat) (m : MainState) (cs : CaptureState)
    (now : Nat) (hInv : Inv k cs) (hlog : m.logging = false)
    (hprev : m.sw2_prev = true) (hlock : m.sw2_lockout_until ≤ now) :
    main_iter fcpu m cs now false =
      ({ logging := true, sw2_prev := false,
         sw2_lockout_until := (now + SW2_DEBOUNCE_TICKS fcpu) % 4294967296,
         last_tick := 0, next_heartbeat := m.next_heartbeat },
       drainDiscard cs.capture_buffer.length cs,
       [OutLine.start, OutLine.header]) := by
  have hg : (!false && m.sw2_prev && decide (m.sw2_lockout_until ≤ now)) = true := by
    rw [hprev, decide_eq_true hlock]
    rfl
  have hfuel : queueLen cs < cs.capture_buffer.length := by
    rw [hInv.1]
    exact queueLen_lt k cs hInv
  have hd := drainDiscard_spec k cs.capture_buffer.length cs hInv hfuel
  have hpos : 0 < (drainDiscard cs.capture_buffer.length cs).capture_buffer.length := by
    rw [hd.2.2.1, hInv.1]
    positivity
  unfold main_iter
  rw [sw2_phase_true_idle fcpu m cs now false hg hlog]
  dsimp only
  rw [heartbeat_logging fcpu _ now rfl]
  dsimp only
  rw [drainPrint_empty _ _ _ _ hpos hd.2.1]
  rfl

/-- Full effect of an Active iteration with the switch released: only the
drain loop runs. -/
theorem main_iter_active_nopress_eq (fcpu : Nat) (m : MainState)
    (cs : CaptureState) (now : Nat) (hlog : m.logging = true) :
    main_iter fcpu m cs now true =
      ({ m with sw2_prev := true,
                last_tick := (drainPrint cs.capture_buffer.length true m.last_tick cs).2.1 },
       (drainPrint cs.capture_buffer.length true m.last_tick cs).1,
       (drainPrint cs.capture_buffer.length true m.last_tick cs).2.2) := by
  have hg : (!true && m.sw2_prev && decide (m.sw2_lockout_until ≤ now)) = false := rfl
  unfold main_iter
  rw [sw2_phase_false fcpu m cs now true hg]
  dsimp only
  have hl2 : ({ logging := m.logging, sw2_prev := true,
                sw2_lockout_until := m.sw2_lockout_until,
                last_tick := m.last_tick,
                next_heartbeat := m.next_heartbeat } : MainState).logging = true := hlog
  rw [heartbeat_logging fcpu _ now hl2]
  dsimp only
  rw [hlog]
  rfl

/-! ### C7: Idle→Active transition discards stale events -/

/-- C7: on every accepted Idle→Active transition the start marker and column
header (and nothing else) are emitted, `last_tick` is reset to the unset
sentinel, and every event queued at the moment of the transition is drained
and discarded — the iteration ends with an empty queue, so no pre-transition
event is ever printed as part of the new run — and the next captured event
prints with `dt = 0`. -/
theorem idle_to_active_start (fcpu k : Nat) (hk : 1 ≤ k) (m : MainState)
    (cs : CaptureState) (now : Nat) (hInv : Inv k cs)
    (hlog : m.logging = false) (hprev : m.sw2_prev = true)
    (hlock : m.sw2_lockout_until ≤ now) :
    (main_iter fcpu m cs now false).2.2 = [OutLine.start, OutLine.header] ∧
    (main_iter fcpu m cs now false).1.logging = true ∧
    (main_iter fcpu m cs now false).1.last_tick = 0 ∧
    (main_iter fcpu m cs now false).2.1.buffer_head =
      (main_iter fcpu m cs now false).2.1.buffer_tail ∧
    ∀ v tov1 now2,
      (main_iter fcpu (main_iter fcpu m cs now false).1
          (ISR_TIMER1_CAPT_vect (main_iter fcpu m cs now false).2.1 v tov1)
          now2 true).2.2 =
        [OutLine.row
          (resolve_ticks
            (main_iter fcpu m cs now false).2.1.timer1_overflow_hi v tov1)
          (icesEdge (main_iter fcpu m cs now false).2.1.ices1) 0
          (main_iter fcpu m cs now false).2.1.dropped_events] := by
  have hfuel : queueLen cs < cs.capture_buffer.length := by
    rw [hInv.1]
    exact queueLen_lt k cs hInv
  have hd := drainDiscard_spec k cs.capture_buffer.length cs hInv hfuel
  have he := main_iter_accept_idle_eq fcpu k m cs now hInv hlog hprev hlock
  rw [he]
  dsimp only
  refine ⟨rfl, rfl, rfl, hd.2.1, ?_⟩
  intro v tov1 now2
  have h2 : 2 ≤ 2 ^ k := by
    calc 2 = 2 ^ 1 := by norm_num
    _ ≤ 2 ^ k := Nat.pow_le_pow_right (by norm_num) hk
  have hInv1 := hd.1
  have hhd1 := hInv1.2.1
  have hempty := hd.2.1
  have henq : ((drainDiscard cs.capture_buffer.length cs).buffer_head + 1) &&&
      ((drainDiscard cs.capture_buffer.length cs).capture_buffer.length - 1) ≠
      (drainDiscard cs.capture_buffer.length cs).buffer_tail := by
    rw [hInv1.1, mask_eq_mod, ← hempty]
    rw [mod_two_cases (by omega) (by omega)]
    split <;> omega
  have hE := absQueue_enqueue k _ hInv1 v tov1 henq
  have hni : absQueue (drainDiscard cs.capture_buffer.length cs) = [] :=
    absQueue_nil k _ hInv1 hempty
  have hfE : queueLen (ISR_TIMER1_CAPT_vect
        (drainDiscard cs.capture_buffer.length cs) v tov1) <
      (ISR_TIMER1_CAPT_vect
        (drainDiscard cs.capture_buffer.length cs) v tov1).capture_buffer.length := by
    rw [hE.1.1]
    exact queueLen_lt k _ hE.1
  have hdd : (ISR_TIMER1_CAPT_vect
        (drainDiscard cs.capture_buffer.length cs) v tov1).dropped_events =
      (drainDiscard cs.capture_buffer.length cs).dropped_events := by
    rw [ISR_capt_store _ v tov1 henq]
  rw [main_iter_active_nopress_eq fcpu
    { logging := true, sw2_prev := false,
      sw2_lockout_until := (now + SW2_DEBOUNCE_TICKS fcpu) % 4294967296,
      last_tick := 0, next_heartbeat := m.next_heartbeat }
    (ISR_TIMER1_CAPT_vect (drainDiscard cs.capture_buffer.length cs) v tov1)
    now2 rfl]
  dsimp only
  rw [(drainPrint_rows k _ 0 _ hE.1 hfE).1]
  rw [hE.2, hni, hdd]
  rfl

/-- Closed-form witness for `idle_to_active_start`: a press with two stale
events queued discards both and the next capture prints with `dt = 0`. -/
theorem idle_to_active_start_witness :
    (main_iter 16000000 mIdle0 staleState2q 50 false).2.2 =
      [OutLine.start, OutLine.header] ∧
    (main_iter 16000000 mIdle0 staleState2q 50 false).1.last_tick = 0 ∧
    (main_iter 16000000 mIdle0 staleState2q 50 false).2.1.buffer_head =
      (main_iter 16000000 mIdle0 staleState2q 50 false).2.1.buffer_tail ∧
    (main_iter 16000000 (main_iter 16000000 mIdle0 staleState2q 50 false).1
        (ISR_TIMER1_CAPT_vect
          (main_iter 16000000 mIdle0 staleState2q 50 false).2.1 500 false)
        70 true).2.2 =
      [OutLine.row
        (resolve_ticks
          (main_iter 16000000 mIdle0 staleState2q 50 false).2.1.timer1_overflow_hi
          500 false)
        (icesEdge (main_iter 16000000 mIdle0 staleState2q 50 false).2.1.ices1) 0
        (main_iter 16000000 mIdle0 staleState2q 50 false).2.1.dropped_events] := by
  have h := idle_to_active_start 16000000 2 (by decide) mIdle0 staleState2q 50
    (by decide) (by decide) (by decide) (by decide)
  exact ⟨h.1, h.2.2.1, h.2.2.2.1, h.2.2.2.2 500 false 70⟩

/-- C5 as stated is false on the code: an event with absolute tick value 0 is
printed and leaves `last_tick` at the unset sentinel 0, so the next row
prints `dt = 0` even though its ticks minus the previous printed ticks is
500. -/
theorem dt_claim_counterexample :
    (drainPrint 4 true 0 dtZeroState).2.2 =
      [OutLine.row 0 capture_edge_t.CAPTURE_EDGE_RISING 0 0,
       OutLine.row 500 capture_edge_t.CAPTURE_EDGE_FALLING 0 0] ∧
    (500 : Nat) - 0 ≠ 0 := by decide

/-- C5 (amended): while Active the drain prints each queued event with
`dt = (ticks - last_tick) mod 2^32` when the previously printed tick value
(held in `last_tick`, with 0 as the unset sentinel) is nonzero, and `dt = 0`
otherwise — in particular for the first event printed after a start; events
with ticks 1000, 1500, 2200 printed consecutively from a fresh start yield
`dt` values 0, 500, 700. -/
theorem dt_rows_amended (k : Nat) (cs : CaptureState) (lt fuel : Nat)
    (hInv : Inv k cs) (hfuel : queueLen cs < fuel) :
    (drainPrint fuel true lt cs).2.2 =
      printedRows lt cs.dropped_events (absQueue cs) ∧
    (drainPrint 4 true 0 dtScenarioState).2.2 =
      [OutLine.row 1000 capture_edge_t.CAPTURE_EDGE_RISING 0 0,
       OutLine.row 1500 capture_edge_t.CAPTURE_EDGE_FALLING 500 0,
       OutLine.row 2200 capture_edge_t.CAPTURE_EDGE_RISING 700 0] :=
  ⟨(drainPrint_rows k fuel lt cs hInv hfuel).1, by decide⟩

/-- Closed-form witness for `dt_rows_amended` on the 1000/1500/2200
scenario state. -/
theorem dt_rows_amended_witness :
    (drainPrint 4 true 0 dtScenarioState).2.2 =
      printedRows 0 dtScenarioState.dropped_events (absQueue dtScenarioState) :=
  (dt_rows_amended 2 dtScenarioState 0 4 (by decide) (by decide)).1

end ValidationLogger
